import Mathlib

/-!
Verification development for the AI-DIET-PLANNER repository.

The embedding models the core state-aggregation logic of the application:
the nutrition totals aggregator, the day-boundary reconciliation performed
by the load effect, meal deletion, the persist effect that triggers the
advice call, and the two response parsers at the boundary to the external
reasoning collaborator (the regex-based advice parser and the JSON parser
used by the image-analysis path).

JavaScript numbers are modelled as rationals, optional fields as `Option`,
and a thrown exception as `Option.none` in the result of the operation
that can throw.  All definitions are executable.
-/

/-- Diet goals, from `src/types.ts` (`enum DietGoal`). -/
inductive DietGoal where
  | WEIGHT_LOSS
  | MUSCLE_GAIN
  | MAINTENANCE
  | KETO
  | VEGAN
deriving DecidableEq

/-- Nutrition tuple, from `src/types.ts` (`interface NutritionInfo`). -/
structure NutritionInfo where
  calories : ℚ
  protein : ℚ
  carbs : ℚ
  fat : ℚ
  fiber : Option ℚ := none
deriving DecidableEq

/-- A logged meal, from `src/types.ts` (`interface MealRecord`). -/
structure MealRecord where
  id : String
  timestamp : ℚ
  foodName : String
  nutrition : NutritionInfo
  image : Option String := none
deriving DecidableEq

/-- User profile, from `src/types.ts` (`interface UserProfile`).
`lastActiveDate` is optional there (`lastActiveDate?: string`), and the
`gender` union is modelled as a string. -/
structure UserProfile where
  username : String
  goal : DietGoal
  age : ℚ
  weight : ℚ
  height : ℚ
  gender : String
  activityLevel : ℚ
  dailyCalorieTarget : ℚ
  dailyProteinTarget : ℚ
  lastActiveDate : Option String := none
deriving DecidableEq

/-- The accumulator shape of the `totals` fold in `src/App.tsx` lines 129-134. -/
structure Totals where
  cal : ℚ
  prot : ℚ
  carbs : ℚ
  fat : ℚ
deriving DecidableEq

/-- The nutrition totals aggregator, from `src/App.tsx` lines 129-134
(identical in `src/unnamed/part_000` lines 139-144):
`meals.reduce((acc, m) => (...), (cal 0, prot 0, carbs 0, fat 0))`. -/
def totals (meals : List MealRecord) : Totals :=
  meals.foldl
    (fun acc m =>
      { cal := acc.cal + m.nutrition.calories
        prot := acc.prot + m.nutrition.protein
        carbs := acc.carbs + m.nutrition.carbs
        fat := acc.fat + m.nutrition.fat })
    { cal := 0, prot := 0, carbs := 0, fat := 0 }

/-- The day-boundary reconciliation performed by the load effect,
`src/App.tsx` lines 82-88 (identical in `src/unnamed/part_000` lines 85-91):
`if (p.lastActiveDate !== today) then m = []; p.lastActiveDate = today`.
Returns the (possibly cleared) meal list together with the updated profile. -/
def reconcileDay (p : UserProfile) (storedMeals : List MealRecord) (today : String) :
    List MealRecord × UserProfile :=
  if p.lastActiveDate ≠ some today then
    ([], { p with lastActiveDate := some today })
  else
    (storedMeals, p)

/-- The default profile built by the load effect when nothing is persisted,
`src/App.tsx` lines 71-75. -/
def defaultProfile (currentUser today : String) : UserProfile :=
  { username := currentUser
    goal := DietGoal.MAINTENANCE
    age := 30
    weight := 75
    height := 180
    gender := "male"
    activityLevel := 1.375
    dailyCalorieTarget := 2400
    dailyProteinTarget := 150
    lastActiveDate := some today }

/-- The pure content of the load effect, `src/App.tsx` lines 61-89:
take the persisted profile (or the default), take the persisted meal list
(or the empty list), then apply the day-boundary reconciliation.
Returns the profile and meal list that are fed to `setProfile` / `setMeals`. -/
def loadStep (saved : Option UserProfile) (savedMeals : Option (List MealRecord))
    (currentUser today : String) : UserProfile × List MealRecord :=
  let p := saved.getD (defaultProfile currentUser today)
  let m := savedMeals.getD []
  let r := reconcileDay p m today
  (r.2, r.1)

/-- Meal deletion, `src/App.tsx` line 289 (identical in
`src/unnamed/part_000` line 298): `meals.filter(x => x.id !== m.id)`. -/
def removeMeal (i : String) (meals : List MealRecord) : List MealRecord :=
  meals.filter (fun x => x.id != i)

/-- One decision of the advice parser, from `src/types.ts`
(`interface AgentDecision`).  The status is kept as a raw string because the
implementation builds it with an unchecked cast. -/
structure AgentDecision where
  status : String
  reasoning : String
  suggestion : String
  suggestedRecipes : List (String × String)
deriving DecidableEq

/-- Outcome of the persist effect of `src/unnamed/part_000` lines 94-100:
whether the advice call was made, and the agent-feedback state afterwards. -/
structure PersistResult where
  callMade : Bool
  agentFeedback : Option AgentDecision
deriving DecidableEq

/-- The persist effect of `src/unnamed/part_000` lines 94-100 together with
`triggerAgentUpdate` (lines 102-113): the advice call is made only when
`meals.length > 0`, and a completed call overwrites `agentFeedback` with the
new decision; nothing else touches `agentFeedback`.  `prevFeedback` is the
decision stored before the effect runs and `newDecision` the decision the
external collaborator would return. -/
def persistStep (meals : List MealRecord) (prevFeedback : Option AgentDecision)
    (newDecision : AgentDecision) : PersistResult :=
  if meals.length > 0 then
    { callMade := true, agentFeedback := some newDecision }
  else
    { callMade := false, agentFeedback := prevFeedback }

/-! Regex model for the advice parser of
`src/services/geminiService.ts` lines 118-127.  The two regex shapes used
there are `LABEL\s*(\w+)` and `LABEL\s*([^\n]+)`, matched with
`String.prototype.match` (leftmost match, greedy with backtracking). -/

/-- Word characters of the JavaScript regex class `\w` (ASCII). -/
def isWordChar (c : Char) : Bool :=
  c.isAlpha || c.isDigit || c = '_'

/-- Whitespace characters of the JavaScript regex class `\s`
(the ASCII ones, which are the only ones the parsed replies use). -/
def isSpaceChar (c : Char) : Bool :=
  c = ' ' || c = '\t' || c = '\n' || c = '\r' || c = '\x0b' || c = '\x0c'

/-- Strips `label` from the front of `cs`, or fails. -/
def dropLabel : List Char → List Char → Option (List Char)
  | [], cs => some cs
  | _ :: _, [] => none
  | l :: ls, c :: cs => if l = c then dropLabel ls cs else none

/-- Match of `label\s*(\w+)` anchored at the start of `cs`, returning the
captured group.  Since `\s` and `\w` are disjoint, the greedy `\s*` never
needs to backtrack. -/
def matchWordAt (label : List Char) (cs : List Char) : Option String :=
  match dropLabel label cs with
  | none => none
  | some rest =>
    let w := (rest.dropWhile isSpaceChar).takeWhile isWordChar
    if w.isEmpty then none else some (String.mk w)

/-- Capture of `([^\n]+)` at offset `k` of `rest`: the maximal run of
non-newline characters starting there, which must be non-empty. -/
def lineCaptureAt (rest : List Char) (k : Nat) : Option String :=
  match (rest.drop k).head? with
  | some c =>
    if c ≠ '\n' then some (String.mk ((rest.drop k).takeWhile (fun d => d ≠ '\n')))
    else none
  | none => none

/-- Backtracking loop for `\s*([^\n]+)`: `\s*` consumes `k` whitespace
characters, tried greedily from the longest run downwards. -/
def tryLineCapture (rest : List Char) : Nat → Option String
  | 0 => lineCaptureAt rest 0
  | k + 1 =>
    match lineCaptureAt rest (k + 1) with
    | some r => some r
    | none => tryLineCapture rest k

/-- Match of `label\s*([^\n]+)` anchored at the start of `cs`, returning the
captured group. -/
def matchLineAt (label : List Char) (cs : List Char) : Option String :=
  match dropLabel label cs with
  | none => none
  | some rest => tryLineCapture rest (rest.takeWhile isSpaceChar).length

/-- Leftmost-match scan of `String.prototype.match`: try the anchored
matcher at every start position, first success wins. -/
def scanMatch (f : List Char → Option String) : List Char → Option String
  | [] => f []
  | c :: cs =>
    match f (c :: cs) with
    | some r => some r
    | none => scanMatch f cs

/-- `text.match(/LABEL\s*(\w+)/)?.[1]` of the source, as an option. -/
def jsMatchWord (label text : String) : Option String :=
  scanMatch (matchWordAt label.data) text.data

/-- `text.match(/LABEL\s*([^\n]+)/)?.[1]` of the source, as an option. -/
def jsMatchLine (label text : String) : Option String :=
  scanMatch (matchLineAt label.data) text.data

/-- The JavaScript `x || d` default for an optional captured string:
a missing or empty capture falls back to `d`. -/
def jsOr (o : Option String) (d : String) : String :=
  match o with
  | some s => if s = "" then d else s
  | none => d

/-- One grounding chunk of the collaborator reply; only its optional `web`
field (a `(title, uri)` pair) is read by the source. -/
structure GroundingChunk where
  web : Option (String × String)
deriving DecidableEq

/-- `suggestedRecipes` of `src/services/geminiService.ts` lines 111-116
(identical in the copy embedded in `src/types.ts` lines 214-219):
`groundingChunks.filter(c => c.web).map(c => (c.web.title, c.web.uri)).slice(0, 3)`.
The `none` branch of the match is unreachable after the filter. -/
def suggestedRecipesOf (chunks : List GroundingChunk) : List (String × String) :=
  (((chunks.filter (fun c => c.web.isSome)).map
    (fun c =>
      match c.web with
      | some w => (w.1, w.2)
      | none => ("", ""))).take 3)

/-- The pure part of `getAgentDecision`,
`src/services/geminiService.ts` lines 108-127: given the reply text
(`response.text || ""`) and the grounding chunks (`... || []`), extract the
labelled fields with the three regexes and fall back to the fixed defaults.
The `as any` cast on the status leaves it a raw captured word. -/
def getAgentDecision (textOutput : String) (chunks : List GroundingChunk) :
    AgentDecision :=
  { status := jsOr (jsMatchWord "STATUS:" textOutput) "OPTIMAL"
    reasoning := jsOr (jsMatchLine "REASONING:" textOutput) "Analyzing biological trends..."
    suggestion := jsOr (jsMatchLine "ACTION:" textOutput) "Proceed with current protocol."
    suggestedRecipes := suggestedRecipesOf chunks }

/-! JSON model for `analyzeFoodImage`,
`src/services/geminiService.ts` lines 20-63.  The function ends with
`return JSON.parse(response.text || "\x7b\x7d") as FoodAnalysis;` and
contains no try/catch: a `JSON.parse` failure (a thrown SyntaxError) is
modelled as `none`. -/

/-- JSON values (ECMA-404). -/
inductive JsonValue where
  | null
  | bool (b : Bool)
  | num (q : ℚ)
  | str (s : String)
  | arr (xs : List JsonValue)
  | obj (fields : List (String × JsonValue))

/-- JSON insignificant whitespace. -/
def isJsonWs (c : Char) : Bool :=
  c = ' ' || c = '\t' || c = '\n' || c = '\r'

/-- Hexadecimal digit test for `\u` escapes. -/
def isHexDigitChar (c : Char) : Bool :=
  c.isDigit || ('a' ≤ c && c ≤ 'f') || ('A' ≤ c && c ≤ 'F')

/-- Value of one hexadecimal digit. -/
def hexVal (c : Char) : Nat :=
  if c.isDigit then c.toNat - 48
  else if 'a' ≤ c && c ≤ 'f' then c.toNat - 87
  else c.toNat - 55

/-- Single-character JSON string escapes. -/
def escChar (c : Char) : Option Char :=
  if c = '"' then some '"'
  else if c = '\\' then some '\\'
  else if c = '/' then some '/'
  else if c = 'b' then some '\x08'
  else if c = 'f' then some '\x0c'
  else if c = 'n' then some '\n'
  else if c = 'r' then some '\r'
  else if c = 't' then some '\t'
  else none

/-- Parses the body of a JSON string after the opening quote, returning the
decoded characters and the input after the closing quote.  Raw control
characters are rejected, as in `JSON.parse`. -/
def parseStringBody : Nat → List Char → Option (List Char × List Char)
  | 0, _ => none
  | _ + 1, [] => none
  | fuel + 1, c :: cs =>
    if c = '"' then some ([], cs)
    else if c = '\\' then
      match cs with
      | [] => none
      | e :: cs2 =>
        if e = 'u' then
          match cs2 with
          | h1 :: h2 :: h3 :: h4 :: cs3 =>
            if isHexDigitChar h1 && isHexDigitChar h2 && isHexDigitChar h3 && isHexDigitChar h4 then
              match parseStringBody fuel cs3 with
              | some (body, rest) =>
                some (Char.ofNat (((hexVal h1 * 16 + hexVal h2) * 16 + hexVal h3) * 16 + hexVal h4) :: body, rest)
              | none => none
            else none
          | _ => none
        else
          match escChar e with
          | some ec =>
            match parseStringBody fuel cs2 with
            | some (body, rest) => some (ec :: body, rest)
            | none => none
          | none => none
    else if c.toNat < 32 then none
    else
      match parseStringBody fuel cs with
      | some (body, rest) => some (c :: body, rest)
      | none => none

/-- Numeric value of a digit run. -/
def digitsToNat (ds : List Char) : Nat :=
  ds.foldl (fun n c => n * 10 + (c.toNat - 48)) 0

/-- Parses a JSON number (`-?int frac? exp?` with no leading zeros),
returning its rational value and the rest of the input. -/
def parseNumber (cs : List Char) : Option (ℚ × List Char) :=
  let signed := cs.head? = some '-'
  let cs1 := if signed then cs.drop 1 else cs
  let intDigits := cs1.takeWhile Char.isDigit
  if intDigits.isEmpty then none
  else if intDigits.length > 1 && intDigits.head? = some '0' then none
  else
    let cs2 := cs1.drop intDigits.length
    let hasFrac := cs2.head? = some '.'
    let fracDigits := if hasFrac then (cs2.drop 1).takeWhile Char.isDigit else []
    if hasFrac && fracDigits.isEmpty then none
    else
      let cs3 := if hasFrac then (cs2.drop 1).drop fracDigits.length else cs2
      let hasExp := cs3.head? = some 'e' || cs3.head? = some 'E'
      let afterE := cs3.drop 1
      let expSign : Int := if afterE.head? = some '-' then -1 else 1
      let afterSign :=
        if afterE.head? = some '-' || afterE.head? = some '+' then afterE.drop 1 else afterE
      let expDigits := if hasExp then afterSign.takeWhile Char.isDigit else []
      if hasExp && expDigits.isEmpty then none
      else
        let rest := if hasExp then afterSign.drop expDigits.length else cs3
        let mantissa : ℚ :=
          (digitsToNat intDigits : ℚ) +
            (digitsToNat fracDigits : ℚ) / ((10 : ℚ) ^ fracDigits.length)
        let expo : Int := expSign * (digitsToNat expDigits : Int)
        let value : ℚ := (if signed then -mantissa else mantissa) * (10 : ℚ) ^ expo
        some (value, rest)

/-- Parser mode: a single value, the elements of an array after `[`, or the
members of an object after the opening brace (with the accumulated part). -/
inductive PMode where
  | value
  | elems (acc : List JsonValue)
  | members (acc : List (String × JsonValue))

/-- Fuel-indexed JSON parser.  In `value` mode it parses one JSON value and
returns it with the remaining input; the other two modes parse the tail of
an array or object. -/
def parseJ : Nat → PMode → List Char → Option (JsonValue × List Char)
  | 0, _, _ => none
  | fuel + 1, PMode.value, cs =>
    match cs.dropWhile isJsonWs with
    | [] => none
    | c :: rest =>
      if c = '"' then
        match parseStringBody (rest.length + 1) rest with
        | some (body, rest2) => some (JsonValue.str (String.mk body), rest2)
        | none => none
      else if c = '[' then
        match rest.dropWhile isJsonWs with
        | ']' :: rest2 => some (JsonValue.arr [], rest2)
        | _ => parseJ fuel (PMode.elems []) rest
      else if c = Char.ofNat 123 then
        match rest.dropWhile isJsonWs with
        | d :: rest2 => if d = Char.ofNat 125 then some (JsonValue.obj [], rest2)
                        else parseJ fuel (PMode.members []) rest
        | [] => none
      else if c = 't' then
        match dropLabel ['r', 'u', 'e'] rest with
        | some rest2 => some (JsonValue.bool true, rest2)
        | none => none
      else if c = 'f' then
        match dropLabel ['a', 'l', 's', 'e'] rest with
        | some rest2 => some (JsonValue.bool false, rest2)
        | none => none
      else if c = 'n' then
        match dropLabel ['u', 'l', 'l'] rest with
        | some rest2 => some (JsonValue.null, rest2)
        | none => none
      else
        match parseNumber (c :: rest) with
        | some (q, rest2) => some (JsonValue.num q, rest2)
        | none => none
  | fuel + 1, PMode.elems acc, cs =>
    match parseJ fuel PMode.value cs with
    | some (v, rest) =>
      match rest.dropWhile isJsonWs with
      | ',' :: rest2 => parseJ fuel (PMode.elems (acc ++ [v])) rest2
      | ']' :: rest2 => some (JsonValue.arr (acc ++ [v]), rest2)
      | _ => none
    | none => none
  | fuel + 1, PMode.members acc, cs =>
    match cs.dropWhile isJsonWs with
    | c :: rest =>
      if c = '"' then
        match parseStringBody (rest.length + 1) rest with
        | some (key, rest2) =>
          match rest2.dropWhile isJsonWs with
          | ':' :: rest3 =>
            match parseJ fuel PMode.value rest3 with
            | some (v, rest4) =>
              match rest4.dropWhile isJsonWs with
              | ',' :: rest5 => parseJ fuel (PMode.members (acc ++ [(String.mk key, v)])) rest5
              | d :: rest5 =>
                if d = Char.ofNat 125 then
                  some (JsonValue.obj (acc ++ [(String.mk key, v)]), rest5)
                else none
              | [] => none
            | none => none
          | _ => none
        | none => none
      else none
    | [] => none

/-- `JSON.parse`: parse one value, allow trailing whitespace, reject
anything else.  `none` models a thrown SyntaxError. -/
def jsonParse (s : String) : Option JsonValue :=
  match parseJ (2 * s.length + 4) PMode.value s.data with
  | some (v, rest) => if (rest.dropWhile isJsonWs).isEmpty then some v else none
  | none => none

/-- The parsing step of `analyzeFoodImage`,
`src/services/geminiService.ts` lines 20-63: the reply text is defaulted to
`"\x7b\x7d"` only when empty and fed straight to `JSON.parse`; the `as
FoodAnalysis` cast performs no validation, and there is no error handling
around the parse.  `none` models the propagated SyntaxError. -/
def analyzeFoodImage (responseText : String) : Option JsonValue :=
  jsonParse (if responseText = "" then "\x7b\x7d" else responseText)

/-! Concrete fixtures used by witnesses and counterexamples. -/

/-- A concrete meal record. -/
def mealW : MealRecord :=
  { id := "m1", timestamp := 0, foodName := "Oats",
    nutrition := { calories := 300, protein := 10, carbs := 50, fat := 5 } }

/-- A second concrete meal record with a distinct id. -/
def mealW2 : MealRecord :=
  { id := "m2", timestamp := 1, foodName := "Salmon",
    nutrition := { calories := 400, protein := 35, carbs := 2, fat := 20 } }

/-- A concrete profile with a recorded last-active date. -/
def profileW : UserProfile :=
  { username := "sam", goal := DietGoal.MAINTENANCE, age := 30, weight := 75, height := 180,
    gender := "male", activityLevel := 1.375, dailyCalorieTarget := 2400,
    dailyProteinTarget := 150, lastActiveDate := some "Mon Jan 01 2024" }

/-- The same profile with the last-active date absent. -/
def profileNoDate : UserProfile :=
  { profileW with lastActiveDate := none }

/-- A concrete agent decision. -/
def decisionW : AgentDecision :=
  { status := "WARNING", reasoning := "High fat content detected.",
    suggestion := "Add lean protein.", suggestedRecipes := [] }

/-- Generalisation of the totals fold to an arbitrary accumulator. -/
theorem totals_foldl_eq (meals : List MealRecord) (acc : Totals) :
    meals.foldl
      (fun acc m =>
        { cal := acc.cal + m.nutrition.calories
          prot := acc.prot + m.nutrition.protein
          carbs := acc.carbs + m.nutrition.carbs
          fat := acc.fat + m.nutrition.fat }) acc =
    { cal := acc.cal + (meals.map (fun m => m.nutrition.calories)).sum
      prot := acc.prot + (meals.map (fun m => m.nutrition.protein)).sum
      carbs := acc.carbs + (meals.map (fun m => m.nutrition.carbs)).sum
      fat := acc.fat + (meals.map (fun m => m.nutrition.fat)).sum } := by
  induction meals generalizing acc with
  | nil => simp
  | cons m ms ih => simp [List.foldl_cons, ih, add_assoc]

/-- C1: for every meal list `M`, each field of `totals M` equals the sum of
the corresponding nutrition field over the records of `M`. -/
theorem totals_eq_sums (M : List MealRecord) :
    (totals M).cal = (M.map (fun m => m.nutrition.calories)).sum ∧
    (totals M).prot = (M.map (fun m => m.nutrition.protein)).sum ∧
    (totals M).carbs = (M.map (fun m => m.nutrition.carbs)).sum ∧
    (totals M).fat = (M.map (fun m => m.nutrition.fat)).sum := by
  unfold totals
  rw [totals_foldl_eq]
  simp

/-- C2: with `lastActiveDate = D1`, reconciling against a different day `D2`
clears the meal list and stamps `D2`; reconciling against the same day
returns the stored list and profile unchanged; and a second reconciliation
with the same `today` is a no-op. -/
theorem reconcileDay_day_boundary (p : UserProfile) (M : List MealRecord) (D1 D2 : String)
    (h : p.lastActiveDate = some D1) :
    (D2 ≠ D1 → reconcileDay p M D2 = ([], { p with lastActiveDate := some D2 })) ∧
    (D2 = D1 → reconcileDay p M D2 = (M, p)) ∧
    reconcileDay (reconcileDay p M D2).2 (reconcileDay p M D2).1 D2 =
      ((reconcileDay p M D2).1, (reconcileDay p M D2).2) := by
  unfold reconcileDay
  by_cases hd : D2 = D1
  · subst hd
    simp [h]
  · have hd2 : D1 ≠ D2 := fun hh => hd hh.symm
    simp [h, hd, hd2]

/-- Witness for C2 at a concrete profile, meal list and pair of days. -/
theorem reconcileDay_day_boundary_witness :
    profileW.lastActiveDate = some "Mon Jan 01 2024" ∧
    reconcileDay profileW [mealW] "Tue Jan 02 2024" =
      ([], { profileW with lastActiveDate := some "Tue Jan 02 2024" }) :=
  ⟨rfl,
   (reconcileDay_day_boundary profileW [mealW] "Mon Jan 01 2024" "Tue Jan 02 2024" rfl).1
     (by decide)⟩

/-- C10: the day reconciliation changes no profile field other than
`lastActiveDate`, whether or not the reset fires. -/
theorem reconcileDay_frame (p : UserProfile) (M : List MealRecord) (today : String) :
    ((reconcileDay p M today).2).username = p.username ∧
    ((reconcileDay p M today).2).goal = p.goal ∧
    ((reconcileDay p M today).2).age = p.age ∧
    ((reconcileDay p M today).2).weight = p.weight ∧
    ((reconcileDay p M today).2).height = p.height ∧
    ((reconcileDay p M today).2).gender = p.gender ∧
    ((reconcileDay p M today).2).activityLevel = p.activityLevel ∧
    ((reconcileDay p M today).2).dailyCalorieTarget = p.dailyCalorieTarget ∧
    ((reconcileDay p M today).2).dailyProteinTarget = p.dailyProteinTarget := by
  unfold reconcileDay
  split <;> simp

/-- Length lemma for deletion: with pairwise-distinct ids and an occurrence
of `i`, the filter removes exactly one record. -/
theorem removeMeal_length (meals : List MealRecord) (i : String)
    (hnd : (meals.map MealRecord.id).Nodup) (hmem : ∃ m ∈ meals, m.id = i) :
    (removeMeal i meals).length = meals.length - 1 := by
  induction meals with
  | nil => simp at hmem
  | cons m ms ih =>
    simp only [List.map_cons, List.nodup_cons] at hnd
    by_cases hm : m.id = i
    · have hall : ∀ x ∈ ms, x.id ≠ i := by
        intro x hx hxi
        exact hnd.1 (by rw [hm, ← hxi]; exact List.mem_map_of_mem MealRecord.id hx)
      have : removeMeal i (m :: ms) = ms := by
        simp only [removeMeal, List.filter_cons]
        rw [if_neg (by simp [hm]), List.filter_eq_self.mpr (fun a ha => by
          simpa using hall a ha)]
      simp [this]
    · obtain ⟨x, hx, hxi⟩ := hmem
      rcases List.mem_cons.mp hx with hxm | hxms
      · exact absurd (hxm ▸ hxi) hm
      · have hlen := ih hnd.2 ⟨x, hxms, hxi⟩
        have hpos : 0 < ms.length := List.length_pos_of_mem hxms
        have : removeMeal i (m :: ms) = m :: removeMeal i ms := by
          simp only [removeMeal, List.filter_cons]
          rw [if_pos (by simp [hm])]
        rw [this]
        simp only [List.length_cons, hlen]
        omega

/-- C8: over a meal list with pairwise-distinct ids, deleting a present id
drops exactly one record (the one carrying that id) and keeps every other
record, in order; deleting an absent id is a no-op. -/
theorem removeMeal_spec (meals : List MealRecord) (i : String)
    (hnd : (meals.map MealRecord.id).Nodup) :
    ((∃ m ∈ meals, m.id = i) → (removeMeal i meals).length = meals.length - 1) ∧
    (∀ m ∈ removeMeal i meals, m.id ≠ i) ∧
    (∀ m ∈ meals, m.id ≠ i → m ∈ removeMeal i meals) ∧
    (removeMeal i meals).Sublist meals ∧
    ((∀ m ∈ meals, m.id ≠ i) → removeMeal i meals = meals) := by
  refine ⟨removeMeal_length meals i hnd, ?_, ?_, ?_, ?_⟩
  · intro m hm
    have := (List.mem_filter.mp hm).2
    simpa using this
  · intro m hm hmi
    exact List.mem_filter.mpr ⟨hm, by simpa using hmi⟩
  · exact List.filter_sublist meals
  · intro hall
    exact List.filter_eq_self.mpr (fun a ha => by simpa using hall a ha)

/-- Witness for C8 at a concrete two-element list with distinct ids. -/
theorem removeMeal_spec_witness :
    ([mealW, mealW2].map MealRecord.id).Nodup ∧
    (removeMeal "m1" [mealW, mealW2]).length = [mealW, mealW2].length - 1 ∧
    removeMeal "zz" [mealW, mealW2] = [mealW, mealW2] :=
  ⟨by decide,
   (removeMeal_spec [mealW, mealW2] "m1" (by decide)).1 ⟨mealW, by decide⟩,
   (removeMeal_spec [mealW, mealW2] "zz" (by decide)).2.2.2.2 (by decide)⟩

/-- C4 counterexample: on an empty meal list the persist effect makes no
advice call, but it also does not clear the previously stored decision —
the stored decision survives unchanged instead of becoming `none`. -/
theorem persistStep_empty_keeps_decision :
    (persistStep [] (some decisionW) decisionW).callMade = false ∧
    (persistStep [] (some decisionW) decisionW).agentFeedback = some decisionW ∧
    (persistStep [] (some decisionW) decisionW).agentFeedback ≠ none := by
  decide

/-- C4 (amended): the persist effect of `src/unnamed/part_000` skips the
advice call on an empty meal list and leaves the stored decision unchanged,
and it makes the call whenever at least one meal is logged. -/
theorem persistStep_spec (prev : Option AgentDecision) (d : AgentDecision)
    (m : MealRecord) (ms : List MealRecord) :
    persistStep [] prev d = { callMade := false, agentFeedback := prev } ∧
    (persistStep (m :: ms) prev d).callMade = true := by
  constructor <;> simp [persistStep]

/-- C5 counterexample: with a persisted profile lacking `lastActiveDate`
and a non-empty stored meal list, the load step returns the empty list, not
the stored list. -/
theorem loadStep_absent_date_cex :
    (loadStep (some profileNoDate) (some [mealW]) "sam" "Tue Jan 02 2024").2 =
      ([] : List MealRecord) ∧
    [mealW] ≠ ([] : List MealRecord) := by
  constructor
  · rfl
  · simp

/-- C5 (amended): when the persisted profile has no `lastActiveDate`, the
load step treats the situation as a new day: it stamps `today` and clears
the meal list, returning the empty list whatever was stored. -/
theorem loadStep_absent_date (p : UserProfile) (M : List MealRecord) (u today : String)
    (h : p.lastActiveDate = none) :
    loadStep (some p) (some M) u today =
      ({ p with lastActiveDate := some today }, ([] : List MealRecord)) := by
  simp [loadStep, reconcileDay, h]

/-- Witness for the amended C5 at a concrete profile and stored list. -/
theorem loadStep_absent_date_witness :
    profileNoDate.lastActiveDate = none ∧
    loadStep (some profileNoDate) (some [mealW]) "sam" "Tue Jan 02 2024" =
      ({ profileNoDate with lastActiveDate := some "Tue Jan 02 2024" }, []) :=
  ⟨rfl, loadStep_absent_date profileNoDate [mealW] "sam" "Tue Jan 02 2024" rfl⟩

/-- C3: when none of the three labels matches in the reply text, the advice
parser returns the default decision: status `OPTIMAL` and the two fixed
generic strings.  The parser is a total function of the reply text, so it
never throws. -/
theorem getAgentDecision_fallback (text : String) (chunks : List GroundingChunk)
    (hs : jsMatchWord "STATUS:" text = none)
    (hr : jsMatchLine "REASONING:" text = none)
    (ha : jsMatchLine "ACTION:" text = none) :
    getAgentDecision text chunks =
      { status := "OPTIMAL"
        reasoning := "Analyzing biological trends..."
        suggestion := "Proceed with current protocol."
        suggestedRecipes := suggestedRecipesOf chunks } := by
  unfold getAgentDecision
  rw [hs, hr, ha]
  rfl

/-- Witness for C3 at a concrete label-free reply. -/
theorem getAgentDecision_fallback_witness :
    jsMatchWord "STATUS:" "No labels here." = none ∧
    jsMatchLine "REASONING:" "No labels here." = none ∧
    jsMatchLine "ACTION:" "No labels here." = none ∧
    getAgentDecision "No labels here." [] =
      { status := "OPTIMAL"
        reasoning := "Analyzing biological trends..."
        suggestion := "Proceed with current protocol."
        suggestedRecipes := [] } :=
  ⟨by decide, by decide, by decide,
   getAgentDecision_fallback "No labels here." [] (by decide) (by decide) (by decide)⟩

/-- C6 (code-bug evidence): at the reply "STATUS: SUBOPTIMAL" the advice
parser returns the raw captured word as the status, a value outside the
union `OPTIMAL | WARNING | CRITICAL` declared for `AgentDecision.status`
in `src/types.ts` — the `as any` cast bypasses the declared type. -/
theorem getAgentDecision_status_escapes_union :
    (getAgentDecision "STATUS: SUBOPTIMAL" []).status = "SUBOPTIMAL" ∧
    (getAgentDecision "STATUS: SUBOPTIMAL" []).status ≠ "OPTIMAL" ∧
    (getAgentDecision "STATUS: SUBOPTIMAL" []).status ≠ "WARNING" ∧
    (getAgentDecision "STATUS: SUBOPTIMAL" []).status ≠ "CRITICAL" := by
  decide

/-- The web-bearing entries of the grounding chunks, in their original
order, as the spec describes the reference links. -/
def webEntries (chunks : List GroundingChunk) : List (String × String) :=
  chunks.filterMap (fun c => c.web)

/-- Filtering by presence of `web` and then projecting equals `filterMap`. -/
theorem filter_map_web (chunks : List GroundingChunk) :
    (chunks.filter (fun c => c.web.isSome)).map
      (fun c =>
        match c.web with
        | some w => (w.1, w.2)
        | none => ("", "")) =
    chunks.filterMap (fun c => c.web) := by
  induction chunks with
  | nil => rfl
  | cons c cs ih =>
    cases hw : c.web with
    | none => simp [List.filter_cons, List.filterMap_cons, hw, ih]
    | some w => simp [List.filter_cons, List.filterMap_cons, hw, ih]

/-- C9: the suggested recipes are the first `min(k, 3)` web-bearing entries
of the grounding chunks in their original order, so never more than 3. -/
theorem suggestedRecipes_spec (chunks : List GroundingChunk) :
    suggestedRecipesOf chunks = (webEntries chunks).take 3 ∧
    (suggestedRecipesOf chunks).length = min (webEntries chunks).length 3 ∧
    (suggestedRecipesOf chunks).length ≤ 3 := by
  have h : suggestedRecipesOf chunks = (webEntries chunks).take 3 := by
    unfold suggestedRecipesOf webEntries
    rw [filter_map_web]
  refine ⟨h, ?_, ?_⟩
  · rw [h, List.length_take, Nat.min_comm]
  · rw [h, List.length_take]
    exact Nat.min_le_left 3 _

/-- C7 counterexample: a non-JSON reply makes the image-analysis operation
throw (`none` models the propagated SyntaxError): it is not total and no
fallback default is substituted. -/
theorem analyzeFoodImage_throws_cex : analyzeFoodImage "not json" = none := rfl

/-- C7 (amended): `analyzeFoodImage` feeds the raw reply to `JSON.parse`
with no error handling (only an empty reply is defaulted to the empty
object), so every parse failure on a non-empty reply is propagated as a
thrown exception to the caller. -/
theorem analyzeFoodImage_propagates (t : String) (hne : t ≠ "")
    (hp : jsonParse t = none) : analyzeFoodImage t = none := by
  unfold analyzeFoodImage
  rw [if_neg hne, hp]

/-- Witness for the amended C7 at the concrete reply "not json". -/
theorem analyzeFoodImage_propagates_witness :
    ("not json" : String) ≠ "" ∧ jsonParse "not json" = none ∧
    analyzeFoodImage "not json" = none :=
  ⟨by decide, rfl, analyzeFoodImage_propagates "not json" (by decide) rfl⟩
